import Mathlib

/-!
Verification of the tmenu launcher (src/src/main.rs) against its
natural-language specification.  The Rust program is shallowly embedded:
machine integers become Nat, panics become explicit outcomes (Option none
or a dedicated constructor), and the directory scan is modelled as a list
of file names paired with their parse results.
-/

set_option maxRecDepth 4096

/-- InputMode from main.rs lines 18-21: Normal (the spec calls it Browsing)
and Editing. -/
inductive InputMode where
  | Normal
  | Editing
deriving DecidableEq

/-- AppItem from main.rs lines 35-38: the catalog entry stores only the
display name.  There is no command or description field in the source. -/
structure AppItem where
  name : String
deriving DecidableEq

/-- Tmenu from main.rs lines 23-33: the whole application state. -/
structure Tmenu where
  input : String
  input_mode : InputMode
  search_string : String
  app_list : List AppItem
  index : Nat
deriving DecidableEq

/-- Tmenu::default from main.rs lines 41-49. -/
def Tmenu.default : Tmenu :=
  { input := "", input_mode := InputMode.Normal, search_string := "",
    app_list := [], index := 0 }

/-- Tmenu::next from main.rs lines 50-52: index = (index + 1) % app_list.len().
When app_list is empty the Rust expression panics (remainder by a divisor of
zero); the panic is modelled as none. -/
def Tmenu.next (t : Tmenu) : Option Tmenu :=
  if t.app_list.length = 0 then none
  else some { t with index := (t.index + 1) % t.app_list.length }

/-- Tmenu::previous from main.rs lines 53-59: decrement, or wrap to
app_list.len() - 1.  When index = 0 and app_list is empty the Rust
expression 0usize - 1 overflows (a panic in a debug build, a wrap to
usize::MAX in release); either way it is not a no-op and is modelled
as none. -/
def Tmenu.previous (t : Tmenu) : Option Tmenu :=
  if t.index > 0 then some { t with index := t.index - 1 }
  else if t.app_list.length = 0 then none
  else some { t with index := t.app_list.length - 1 }

/-- Attributes of one parsed desktop file, as far as the program and the
spec mention them.  The source reads only Name (main.rs lines 96-99);
exec, genericName and noDisplay are carried so that theorems can state
that they are ignored. -/
structure DesktopEntry where
  name : Option String
  exec : Option String
  genericName : Option String
  noDisplay : Option String
deriving DecidableEq

/-- One directory entry seen by the scan: its path string and the result
of parse_entry on it (Except.error models a parse failure). -/
structure DirFile where
  path : String
  parsed : Except String DesktopEntry

/-- Outcome of the scan loop of run_app, main.rs lines 92-107.
err models the early return through the question-mark operator on
parse_entry; panicked models the expect on a missing Name attribute. -/
inductive ScanOutcome where
  | ok (catalog : List AppItem)
  | err (e : String)
  | panicked (msg : String)
deriving DecidableEq

/-- Spelling of the ends_with(".desktop") test of main.rs line 94 over the
character list of the path. -/
def strEndsWith (s suffixStr : String) : Bool :=
  suffixStr.toList.isSuffixOf s.toList

/-- The dedup insertion of main.rs lines 101-105: push only when no entry
with the same name is already present (first seen wins). -/
def insertApp (l : List AppItem) (nm : String) : List AppItem :=
  if (l.find? (fun x => x.name == nm)).isNone then l ++ [{ name := nm }] else l

/-- Processing of a single directory entry, main.rs lines 93-106. -/
def scanStep (l : List AppItem) (f : DirFile) : ScanOutcome :=
  if strEndsWith f.path ".desktop" then
    match f.parsed with
    | Except.error e => ScanOutcome.err e
    | Except.ok entry =>
      match entry.name with
      | none => ScanOutcome.panicked "Name does not exist"
      | some nm => ScanOutcome.ok (insertApp l nm)
  else ScanOutcome.ok l

/-- The whole directory scan of main.rs lines 92-107: fold scanStep over
the files, stopping at the first error or panic. -/
def scanFiles (l : List AppItem) : List DirFile → ScanOutcome
  | [] => ScanOutcome.ok l
  | f :: fs =>
    match scanStep l f with
    | ScanOutcome.ok l2 => scanFiles l2 fs
    | ScanOutcome.err e => ScanOutcome.err e
    | ScanOutcome.panicked m => ScanOutcome.panicked m

/-- Key codes distinguished by the match in main.rs lines 111-150. -/
inductive KeyCode where
  | char (c : Char)
  | enter
  | backspace
  | esc
  | up
  | down
  | other
deriving DecidableEq

/-- Result of dispatching one key event: the loop continues with a new
state, run_app returns Ok (the q key in Normal mode), or a cursor move
panicked on an empty list. -/
inductive StepResult where
  | cont (t : Tmenu)
  | quit (t : Tmenu)
  | panicked
deriving DecidableEq

/-- String::pop of main.rs line 143: drop the last character, no effect on
an empty string, never a panic. -/
def strPop (s : String) : String :=
  { data := s.data.dropLast }

/-- The key dispatch of main.rs lines 111-150, one branch per source arm. -/
def handleKey (t : Tmenu) (k : KeyCode) : StepResult :=
  match t.input_mode with
  | InputMode.Normal =>
    match k with
    | KeyCode.char c =>
      if c = 'i' then StepResult.cont { t with input_mode := InputMode.Editing }
      else if c = 'q' then StepResult.quit t
      else if c = 'k' then
        match t.previous with
        | some t2 => StepResult.cont t2
        | none => StepResult.panicked
      else if c = 'j' then
        match t.next with
        | some t2 => StepResult.cont t2
        | none => StepResult.panicked
      else StepResult.cont t
    | KeyCode.up =>
      match t.previous with
      | some t2 => StepResult.cont t2
      | none => StepResult.panicked
    | KeyCode.down =>
      match t.next with
      | some t2 => StepResult.cont t2
      | none => StepResult.panicked
    | _ => StepResult.cont t
  | InputMode.Editing =>
    match k with
    | KeyCode.enter => StepResult.cont { t with search_string := t.input }
    | KeyCode.char c => StepResult.cont { t with input := t.input.push c }
    | KeyCode.backspace => StepResult.cont { t with input := strPop t.input }
    | KeyCode.esc => StepResult.cont { t with input_mode := InputMode.Normal }
    | _ => StepResult.cont t

/-- The list band built by ui, main.rs lines 246-254: every element of
app_list is turned into a list item showing its name; the search string is
not consulted anywhere. -/
def uiItems (app : Tmenu) : List String :=
  app.app_list.enum.map (fun p => p.2.name)

/-- Substring containment over character lists: needle occurs contiguously
inside hay. -/
def containsSub (hay needle : List Char) : Bool :=
  match hay with
  | [] => needle.isEmpty
  | c :: t => needle.isPrefixOf (c :: t) || containsSub t needle

/-- Case lowering of a string as a character list. -/
def lowerChars (s : String) : List Char :=
  s.toList.map Char.toLower

/-- The filtering rule as the spec words it (section 4.2), for comparison
with the source: case-insensitive substring containment against the name
(the AppItem of the source has no description field), identity on the
empty search text.  The source itself contains no filtering. -/
def specFilter (catalog : List AppItem) (s : String) : List AppItem :=
  if s = "" then catalog
  else catalog.filter (fun a => containsSub (lowerChars a.name) (lowerChars s))

/-- Result of running the event loop of run_app on a finite script of key
events: Ok return, error return, panic, or the script ran out while the
loop was still blocked on event::read. -/
inductive LoopResult where
  | ok
  | err (e : String)
  | panicked
  | stillRunning (t : Tmenu)
deriving DecidableEq

/-- The loop of run_app, main.rs lines 90-153: every iteration rescans the
directory (modelled by the fixed list of files), draws, reads one event and
dispatches it. -/
def runApp (files : List DirFile) : List KeyCode → Tmenu → LoopResult
  | [], t =>
    match scanFiles t.app_list files with
    | ScanOutcome.err e => LoopResult.err e
    | ScanOutcome.panicked _ => LoopResult.panicked
    | ScanOutcome.ok l => LoopResult.stillRunning { t with app_list := l }
  | k :: rest, t =>
    match scanFiles t.app_list files with
    | ScanOutcome.err e => LoopResult.err e
    | ScanOutcome.panicked _ => LoopResult.panicked
    | ScanOutcome.ok l =>
      match handleKey { t with app_list := l } k with
      | StepResult.cont t3 => runApp files rest t3
      | StepResult.quit _ => LoopResult.ok
      | StepResult.panicked => LoopResult.panicked

/-- Terminal lifecycle events of main, main.rs lines 62-88. -/
inductive TermEv where
  | enterRaw
  | restore
deriving DecidableEq

/-- Terminal trace of main, main.rs lines 62-88: raw mode and the alternate
screen are entered first; after run_app returns (Ok or Err) the terminal is
restored once; a panic unwinds past the restore code, and the source
registers no panic hook, so a panicking run produces no restore event.
A run whose event script is exhausted has not exited, hence no restore yet. -/
def mainTerminalTrace (files : List DirFile) (events : List KeyCode) : List TermEv :=
  TermEv.enterRaw ::
    (match runApp files events Tmenu.default with
     | LoopResult.ok => [TermEv.restore]
     | LoopResult.err _ => [TermEv.restore]
     | LoopResult.panicked => []
     | LoopResult.stillRunning _ => [])

/-- Modelled from the spec: the select-and-launch routine of section 4.5 is
absent from src/src/main.rs (the event loop has no select binding and
AppItem stores no command), so it is modelled from the spec words: first
restore the terminal, then spawn the command through a shell with null
stdio, report a spawn failure without escalating, and exit with success
regardless.  spawnErr is the spawn failure when one occurs. -/
inductive ExecEv where
  | restoreTerminal
  | spawnAttempt (cmd : String)
  | reportErr (e : String)
  | exitSuccess
deriving DecidableEq

/-- Modelled from the spec: the ordered trace of the launch sequence of
section 4.5 for a selected entry with launch command cmd. -/
def execute (cmd : String) (spawnErr : Option String) : List ExecEv :=
  [ExecEv.restoreTerminal, ExecEv.spawnAttempt cmd]
    ++ (match spawnErr with
        | some e => [ExecEv.reportErr e]
        | none => [])
    ++ [ExecEv.exitSuccess]

/-- Iterate a possibly panicking state transformer k times, propagating a
panic (none). -/
def iterOpt (f : Tmenu → Option Tmenu) : Nat → Tmenu → Option Tmenu
  | 0, t => some t
  | k + 1, t => (f t).bind (iterOpt f k)

/-- Helper: next on a non-empty list advances the index by one modulo the
length. -/
theorem next_eq (a : String) (m : InputMode) (s : String) (l : List AppItem) (i : Nat)
    (h : l ≠ []) :
    Tmenu.next ⟨a, m, s, l, i⟩ = some ⟨a, m, s, l, (i + 1) % l.length⟩ := by
  simp [Tmenu.next, List.length_eq_zero, h]

/-- Helper: previous on a non-empty list with an in-range index subtracts one
modulo the length. -/
theorem previous_eq (a : String) (m : InputMode) (s : String) (l : List AppItem) (i : Nat)
    (h : l ≠ []) (hi : i < l.length) :
    Tmenu.previous ⟨a, m, s, l, i⟩
      = some ⟨a, m, s, l, (i + (l.length - 1)) % l.length⟩ := by
  have hlen : 0 < l.length := List.length_pos.mpr h
  unfold Tmenu.previous
  dsimp only
  by_cases hpos : i > 0
  · rw [if_pos hpos]
    have hidx : (i + (l.length - 1)) % l.length = i - 1 := by
      rw [show i + (l.length - 1) = (i - 1) + l.length by omega, Nat.add_mod_right]
      exact Nat.mod_eq_of_lt (by omega)
    rw [hidx]
  · rw [if_neg hpos]
    rw [if_neg (Nat.pos_iff_ne_zero.mp hlen)]
    have hidx : (i + (l.length - 1)) % l.length = l.length - 1 := by
      have hz : i = 0 := by omega
      rw [hz, Nat.zero_add]
      exact Nat.mod_eq_of_lt (by omega)
    rw [hidx]

/-- Helper: iterating next k times adds k to the index modulo the length. -/
theorem iterOpt_next_eq (k : Nat) :
    ∀ (a : String) (m : InputMode) (s : String) (l : List AppItem) (i : Nat),
      l ≠ [] → i < l.length →
      iterOpt Tmenu.next k ⟨a, m, s, l, i⟩ = some ⟨a, m, s, l, (i + k) % l.length⟩ := by
  induction k with
  | zero =>
    intro a m s l i h hi
    simp [iterOpt, Nat.mod_eq_of_lt hi]
  | succ k ih =>
    intro a m s l i h hi
    have hlen : 0 < l.length := List.length_pos.mpr h
    simp only [iterOpt]
    rw [next_eq a m s l i h]
    show iterOpt Tmenu.next k ⟨a, m, s, l, (i + 1) % l.length⟩ = _
    rw [ih a m s l _ h (Nat.mod_lt _ hlen)]
    have harith : ((i + 1) % l.length + k) % l.length = (i + (k + 1)) % l.length := by
      rw [Nat.mod_add_mod, Nat.add_assoc, Nat.add_comm 1 k]
    rw [harith]

/-- Helper: iterating previous k times adds k copies of length - 1 to the
index modulo the length. -/
theorem iterOpt_prev_eq (k : Nat) :
    ∀ (a : String) (m : InputMode) (s : String) (l : List AppItem) (i : Nat),
      l ≠ [] → i < l.length →
      iterOpt Tmenu.previous k ⟨a, m, s, l, i⟩
        = some ⟨a, m, s, l, (i + k * (l.length - 1)) % l.length⟩ := by
  induction k with
  | zero =>
    intro a m s l i h hi
    simp [iterOpt, Nat.mod_eq_of_lt hi]
  | succ k ih =>
    intro a m s l i h hi
    have hlen : 0 < l.length := List.length_pos.mpr h
    simp only [iterOpt]
    rw [previous_eq a m s l i h hi]
    show iterOpt Tmenu.previous k ⟨a, m, s, l, (i + (l.length - 1)) % l.length⟩ = _
    rw [ih a m s l _ h (Nat.mod_lt _ hlen)]
    have harith : ((i + (l.length - 1)) % l.length + k * (l.length - 1)) % l.length
        = (i + (k + 1) * (l.length - 1)) % l.length := by
      rw [Nat.mod_add_mod, Nat.add_assoc,
        Nat.add_comm (l.length - 1) (k * (l.length - 1)), ← add_one_mul]
    rw [harith]

/-- Helper: the dedup insertion preserves distinctness of the names. -/
theorem insertApp_names_nodup (l : List AppItem) (nm : String)
    (h : (l.map AppItem.name).Nodup) : ((insertApp l nm).map AppItem.name).Nodup := by
  unfold insertApp
  by_cases hf : (l.find? (fun x => x.name == nm)).isNone = true
  · rw [if_pos hf]
    rw [List.map_append]
    have hnm : nm ∉ l.map AppItem.name := by
      intro hmem
      obtain ⟨x, hx, hxe⟩ := List.mem_map.mp hmem
      have hno := List.find?_eq_none.mp (Option.isNone_iff_eq_none.mp hf) x hx
      exact hno (by simp [hxe])
    refine List.Nodup.append h (List.nodup_singleton nm) ?_
    intro x hx1 hx2
    simp at hx2
    subst hx2
    exact hnm hx1
  · rw [if_neg hf]
    exact h

/-- Helper: a scan step that returns a catalog preserves distinctness of the
names. -/
theorem scanStep_ok_nodup (l l2 : List AppItem) (f : DirFile)
    (h : (l.map AppItem.name).Nodup) (hstep : scanStep l f = ScanOutcome.ok l2) :
    (l2.map AppItem.name).Nodup := by
  unfold scanStep at hstep
  split at hstep
  · split at hstep
    · exact ScanOutcome.noConfusion hstep
    · split at hstep
      · exact ScanOutcome.noConfusion hstep
      · injection hstep with h2
        rw [← h2]
        exact insertApp_names_nodup _ _ h
  · injection hstep with h2
    rw [← h2]
    exact h

/-- Claim C1, counterexample: with catalog [Firefox] and committed search
string zzz, the displayed list still shows Firefox while the filter of the
spec would yield the empty view; the source applies no filtering, so the
FilterView is not the matching subsequence the claim describes. -/
theorem c1_search_ignored_cex :
    uiItems ⟨"zzz", InputMode.Normal, "zzz", [⟨"Firefox"⟩], 0⟩ = ["Firefox"] ∧
    (specFilter [⟨"Firefox"⟩] "zzz").map AppItem.name = [] ∧
    uiItems ⟨"zzz", InputMode.Normal, "zzz", [⟨"Firefox"⟩], 0⟩ ≠
      (specFilter [⟨"Firefox"⟩] "zzz").map AppItem.name := by decide

/-- Claim C1, amended: for every catalog and search string the view handed
to the display is the whole catalog in order (the ui never consults
search_string), so it coincides with the filter the spec describes exactly
on the empty search text. -/
theorem c1_view_is_whole_catalog :
    ∀ app : Tmenu, uiItems app = (specFilter app.app_list "").map AppItem.name := by
  intro app
  rw [show specFilter app.app_list "" = app.app_list from by
    unfold specFilter; rw [if_pos rfl]]
  unfold uiItems
  rw [show (fun p : Nat × AppItem => p.2.name) = (AppItem.name ∘ Prod.snd) from rfl]
  rw [← List.map_map, List.enum_map_snd]

/-- Claim C2: next and previous on a state whose list is empty are not
no-ops: next evaluates (index + 1) % 0, a remainder by zero, and previous
evaluates 0 - 1 on usize; both panics are modelled by none. -/
theorem c2_next_previous_empty_panic :
    Tmenu.next Tmenu.default = none ∧ Tmenu.previous Tmenu.default = none := by
  decide

/-- Claim C3: in the launch sequence modelled from the spec, restoring the
terminal is the first step and the spawn attempt is the second, so the
restore happens strictly before the spawn and also when the spawn
subsequently fails; the trace always ends with a successful exit. -/
theorem c3_restore_before_spawn :
    ∀ (cmd : String) (spawnErr : Option String),
      (execute cmd spawnErr).head? = some ExecEv.restoreTerminal ∧
      (execute cmd spawnErr).get? 1 = some (ExecEv.spawnAttempt cmd) ∧
      (execute cmd spawnErr).getLast? = some ExecEv.exitSuccess := by
  intro cmd s
  cases s <;> exact ⟨rfl, rfl, rfl⟩

/-- Claim C4, counterexample: a directory whose single file lacks the Name
attribute makes the scan panic; no panic hook is registered in main.rs, so
the process dies with raw mode still engaged and the terminal trace holds
no restore event, against the claim that every exit path restores once. -/
theorem c4_panic_no_restore_cex :
    TermEv.restore ∉
      mainTerminalTrace [⟨"nameless.desktop", Except.ok ⟨none, some "x", none, none⟩⟩] [] ∧
    mainTerminalTrace [⟨"nameless.desktop", Except.ok ⟨none, some "x", none, none⟩⟩] []
      = [TermEv.enterRaw] := by decide

/-- Claim C4, amended: on the exit paths that exist in the source, the
normal quit return and the error return of run_app, main restores the
terminal exactly once; a panicking run restores it zero times because no
panic hook is registered. -/
theorem c4_restore_normal_and_error_paths :
    ∀ (files : List DirFile) (events : List KeyCode),
      ((runApp files events Tmenu.default = LoopResult.ok ∨
          (∃ e, runApp files events Tmenu.default = LoopResult.err e)) →
        (mainTerminalTrace files events).count TermEv.restore = 1) ∧
      (runApp files events Tmenu.default = LoopResult.panicked →
        (mainTerminalTrace files events).count TermEv.restore = 0) := by
  intro files events
  constructor
  · intro hok
    unfold mainTerminalTrace
    rcases hok with h | ⟨e, h⟩ <;> rw [h] <;> rfl
  · intro h
    unfold mainTerminalTrace
    rw [h]
    rfl

/-- Claim C4, witness: a directory with one good file and a script pressing
q quits normally and the trace restores the terminal exactly once. -/
theorem c4_restore_witness :
    (mainTerminalTrace [⟨"a.desktop", Except.ok ⟨some "A", some "x", none, none⟩⟩]
        [KeyCode.char 'q']).count TermEv.restore = 1 :=
  (c4_restore_normal_and_error_paths
      [⟨"a.desktop", Except.ok ⟨some "A", some "x", none, none⟩⟩]
      [KeyCode.char 'q']).1 (Or.inl (by decide))

/-- Claim C5, counterexample: two shortcut files named A with Exec x and
Exec y produce the single-entry catalog [A] in either order, because
AppItem records no command at all; the surviving entry therefore does not
keep the first-encountered Exec, there is no Exec to keep. -/
theorem c5_no_exec_kept_cex :
    scanFiles [] [⟨"a.desktop", Except.ok ⟨some "A", some "x", none, none⟩⟩,
        ⟨"b.desktop", Except.ok ⟨some "A", some "y", none, none⟩⟩]
      = ScanOutcome.ok [⟨"A"⟩] ∧
    scanFiles [] [⟨"a.desktop", Except.ok ⟨some "A", some "y", none, none⟩⟩,
        ⟨"b.desktop", Except.ok ⟨some "A", some "x", none, none⟩⟩]
      = ScanOutcome.ok [⟨"A"⟩] := by decide

/-- Claim C5, amended: every catalog the scan builds from a start list with
distinct names has at most one entry per distinct name (the first file with
a given name wins and later duplicates are dropped); the surviving entry
records only the name, never an Exec. -/
theorem c5_dedup_by_name :
    ∀ (files : List DirFile) (l0 cat : List AppItem),
      (l0.map AppItem.name).Nodup →
      scanFiles l0 files = ScanOutcome.ok cat →
      (cat.map AppItem.name).Nodup := by
  intro files
  induction files with
  | nil =>
    intro l0 cat h hs
    unfold scanFiles at hs
    injection hs with h2
    rw [← h2]
    exact h
  | cons f fs ih =>
    intro l0 cat h hs
    unfold scanFiles at hs
    cases hstep : scanStep l0 f with
    | ok l2 =>
      rw [hstep] at hs
      exact ih l2 cat (scanStep_ok_nodup l0 l2 f h hstep) hs
    | err e =>
      rw [hstep] at hs
      exact ScanOutcome.noConfusion hs
    | panicked msg =>
      rw [hstep] at hs
      exact ScanOutcome.noConfusion hs

/-- Claim C5, witness: the two-file duplicate scan yields the catalog [A]
and its names are distinct. -/
theorem c5_dedup_witness :
    (([⟨"A"⟩] : List AppItem).map AppItem.name).Nodup :=
  c5_dedup_by_name
    [⟨"a.desktop", Except.ok ⟨some "A", some "x", none, none⟩⟩,
     ⟨"b.desktop", Except.ok ⟨some "A", some "y", none, none⟩⟩]
    [] [⟨"A"⟩] (by decide) (by decide)

/-- Claim C6, counterexample: a shortcut file with Name Files, no Exec, and
NoDisplay true still contributes the entry Files to the catalog, against
the claim that such files never appear. -/
theorem c6_hidden_entry_included_cex :
    scanFiles [] [⟨"files.desktop", Except.ok ⟨some "Files", none, none, some "true"⟩⟩]
      = ScanOutcome.ok [⟨"Files"⟩] ∧
    scanFiles [] [⟨"files.desktop", Except.ok ⟨some "Files", none, none, some "true"⟩⟩]
      ≠ ScanOutcome.ok [] := by decide

/-- Claim C6, amended: the scan step reads only the Name attribute of a
parsed file; two parsed files with the same Name are treated identically
whatever their Exec, GenericName and NoDisplay attributes, so lacking Exec
or carrying NoDisplay true never keeps an entry out of the catalog. -/
theorem c6_exec_nodisplay_ignored :
    ∀ (l : List AppItem) (path : String) (e1 e2 : DesktopEntry),
      e1.name = e2.name →
      scanStep l ⟨path, Except.ok e1⟩ = scanStep l ⟨path, Except.ok e2⟩ := by
  intro l path e1 e2 h
  simp only [scanStep]
  rw [h]

/-- Claim C6, witness: a file with an Exec and no NoDisplay is processed
exactly like a file with no Exec and NoDisplay true when both are named A. -/
theorem c6_ignored_witness :
    scanStep [] ⟨"a.desktop", Except.ok ⟨some "A", some "x", none, none⟩⟩
      = scanStep [] ⟨"a.desktop", Except.ok ⟨some "A", none, none, some "true"⟩⟩ :=
  c6_exec_nodisplay_ignored [] "a.desktop"
    ⟨some "A", some "x", none, none⟩ ⟨some "A", none, none, some "true"⟩ rfl

/-- Claim C7, counterexample: a directory holding a file that fails to
parse followed by a good file does not skip the bad file and continue; the
scan aborts with the parse error and the good file never enters a catalog. -/
theorem c7_parse_error_aborts_cex :
    scanFiles [] [⟨"x.desktop", Except.error "bad"⟩,
        ⟨"g.desktop", Except.ok ⟨some "Good", some "g", none, none⟩⟩]
      = ScanOutcome.err "bad" ∧
    scanFiles [] [⟨"x.desktop", Except.error "bad"⟩,
        ⟨"g.desktop", Except.ok ⟨some "Good", some "g", none, none⟩⟩]
      ≠ ScanOutcome.ok [⟨"Good"⟩] := by decide

/-- Claim C7, amended: a parse failure on a desktop file is propagated by
the question-mark operator and aborts the whole scan with that error, the
remaining files unprocessed; a desktop file whose entry lacks Name panics
through expect; in neither case is the file skipped with the scan
continuing. -/
theorem c7_abort_and_panic_behavior :
    (∀ (p e : String) (rest : List DirFile) (l : List AppItem),
        strEndsWith p ".desktop" = true →
        scanFiles l (⟨p, Except.error e⟩ :: rest) = ScanOutcome.err e) ∧
    (∀ (p : String) (entry : DesktopEntry) (rest : List DirFile) (l : List AppItem),
        strEndsWith p ".desktop" = true → entry.name = none →
        scanFiles l (⟨p, Except.ok entry⟩ :: rest)
          = ScanOutcome.panicked "Name does not exist") := by
  constructor
  · intro p e rest l hp
    simp only [scanFiles, scanStep]
    rw [if_pos hp]
  · intro p entry rest l hp hn
    simp only [scanFiles, scanStep]
    rw [if_pos hp, hn]

/-- Claim C7, witness: a broken desktop file aborts the scan with its error
and a nameless desktop file panics. -/
theorem c7_abort_witness :
    scanFiles [] [⟨"broken.desktop", Except.error "io error"⟩] = ScanOutcome.err "io error" ∧
    scanFiles [] [⟨"nameless.desktop", Except.ok ⟨none, none, none, none⟩⟩]
      = ScanOutcome.panicked "Name does not exist" :=
  ⟨c7_abort_and_panic_behavior.1 "broken.desktop" "io error" [] [] (by decide),
   c7_abort_and_panic_behavior.2 "nameless.desktop" ⟨none, none, none, none⟩ [] []
     (by decide) rfl⟩

/-- Claim C8: the state machine starts in Normal (the Browsing of the
spec); the i key in Normal enters Editing; Esc in Editing returns to
Normal; Enter in Editing copies the input into search_string while the
mode stays Editing. -/
theorem c8_mode_transitions :
    Tmenu.default.input_mode = InputMode.Normal ∧
    (∀ t : Tmenu, t.input_mode = InputMode.Normal →
        handleKey t (KeyCode.char 'i')
          = StepResult.cont { t with input_mode := InputMode.Editing }) ∧
    (∀ t : Tmenu, t.input_mode = InputMode.Editing →
        handleKey t KeyCode.esc
          = StepResult.cont { t with input_mode := InputMode.Normal }) ∧
    (∀ t : Tmenu, t.input_mode = InputMode.Editing →
        handleKey t KeyCode.enter
          = StepResult.cont { t with search_string := t.input }) := by
  refine ⟨rfl, ?_, ?_, ?_⟩
  · intro t h
    obtain ⟨a, m, s, l, i⟩ := t
    replace h : m = InputMode.Normal := h
    subst h
    simp [handleKey]
  · intro t h
    obtain ⟨a, m, s, l, i⟩ := t
    replace h : m = InputMode.Editing := h
    subst h
    simp [handleKey]
  · intro t h
    obtain ⟨a, m, s, l, i⟩ := t
    replace h : m = InputMode.Editing := h
    subst h
    simp [handleKey]

/-- Claim C8, witness: from a concrete Editing state with input ab, Enter
commits ab to search_string and stays in Editing. -/
theorem c8_mode_witness :
    handleKey ⟨"ab", InputMode.Editing, "", [], 0⟩ KeyCode.enter
      = StepResult.cont ⟨"ab", InputMode.Editing, "ab", [], 0⟩ :=
  c8_mode_transitions.2.2.2 ⟨"ab", InputMode.Editing, "", [], 0⟩ rfl

/-- Claim C9: on any state with a non-empty list and an in-range cursor,
iterating next length-many times returns the whole state to its start, and
likewise for previous; concretely, on a three-item view previous from index
0 yields index 2 and next from index 2 yields index 0. -/
theorem c9_wraparound_period :
    (∀ t : Tmenu, t.app_list ≠ [] → t.index < t.app_list.length →
        iterOpt Tmenu.next t.app_list.length t = some t ∧
        iterOpt Tmenu.previous t.app_list.length t = some t) ∧
    Tmenu.previous ⟨"", InputMode.Normal, "", [⟨"a"⟩, ⟨"b"⟩, ⟨"c"⟩], 0⟩
      = some ⟨"", InputMode.Normal, "", [⟨"a"⟩, ⟨"b"⟩, ⟨"c"⟩], 2⟩ ∧
    Tmenu.next ⟨"", InputMode.Normal, "", [⟨"a"⟩, ⟨"b"⟩, ⟨"c"⟩], 2⟩
      = some ⟨"", InputMode.Normal, "", [⟨"a"⟩, ⟨"b"⟩, ⟨"c"⟩], 0⟩ := by
  refine ⟨?_, by decide, by decide⟩
  intro t hne hi
  obtain ⟨a, m, s, l, i⟩ := t
  replace hne : l ≠ [] := hne
  replace hi : i < l.length := hi
  constructor
  · show iterOpt Tmenu.next l.length ⟨a, m, s, l, i⟩ = _
    rw [iterOpt_next_eq l.length a m s l i hne hi, Nat.add_mod_right,
      Nat.mod_eq_of_lt hi]
  · show iterOpt Tmenu.previous l.length ⟨a, m, s, l, i⟩ = _
    rw [iterOpt_prev_eq l.length a m s l i hne hi, Nat.mul_comm,
      Nat.add_mul_mod_self_right, Nat.mod_eq_of_lt hi]

/-- Claim C9, witness: on a three-item list starting at index 1, three
applications of next return the state unchanged. -/
theorem c9_wraparound_witness :
    iterOpt Tmenu.next 3 ⟨"", InputMode.Normal, "", [⟨"a"⟩, ⟨"b"⟩, ⟨"c"⟩], 1⟩
      = some ⟨"", InputMode.Normal, "", [⟨"a"⟩, ⟨"b"⟩, ⟨"c"⟩], 1⟩ :=
  (c9_wraparound_period.1 ⟨"", InputMode.Normal, "", [⟨"a"⟩, ⟨"b"⟩, ⟨"c"⟩], 1⟩
    (by decide) (by decide)).1

/-- Claim C10: every character key in Editing is appended to the input and
the loop continues (so the q key quits only in Normal mode, where it
returns from run_app), and Backspace in Editing pops the last character,
which on an empty input is a no-op. -/
theorem c10_editing_keys :
    (∀ (t : Tmenu) (c : Char), t.input_mode = InputMode.Editing →
        handleKey t (KeyCode.char c) = StepResult.cont { t with input := t.input.push c }) ∧
    (∀ t : Tmenu, t.input_mode = InputMode.Normal →
        handleKey t (KeyCode.char 'q') = StepResult.quit t) ∧
    (∀ t : Tmenu, t.input_mode = InputMode.Editing →
        handleKey t KeyCode.backspace = StepResult.cont { t with input := strPop t.input }) ∧
    (∀ t : Tmenu, t.input_mode = InputMode.Editing → t.input = "" →
        handleKey t KeyCode.backspace = StepResult.cont t) := by
  refine ⟨?_, ?_, ?_, ?_⟩
  · intro t c h
    obtain ⟨a, m, s, l, i⟩ := t
    replace h : m = InputMode.Editing := h
    subst h
    simp [handleKey]
  · intro t h
    obtain ⟨a, m, s, l, i⟩ := t
    replace h : m = InputMode.Normal := h
    subst h
    simp [handleKey]
  · intro t h
    obtain ⟨a, m, s, l, i⟩ := t
    replace h : m = InputMode.Editing := h
    subst h
    simp [handleKey]
  · intro t h he
    obtain ⟨a, m, s, l, i⟩ := t
    replace h : m = InputMode.Editing := h
    subst h
    replace he : a = "" := he
    subst he
    simp [handleKey]
    rw [(by decide : strPop "" = "")]

/-- Claim C10, witness: in Editing the q key is appended rather than
quitting, in Normal the q key quits, and Backspace on an empty Editing
input leaves the state unchanged. -/
theorem c10_editing_witness :
    handleKey ⟨"a", InputMode.Editing, "", [], 0⟩ (KeyCode.char 'q')
      = StepResult.cont ⟨"aq", InputMode.Editing, "", [], 0⟩ ∧
    handleKey ⟨"", InputMode.Normal, "", [], 0⟩ (KeyCode.char 'q')
      = StepResult.quit ⟨"", InputMode.Normal, "", [], 0⟩ ∧
    handleKey ⟨"", InputMode.Editing, "", [], 0⟩ KeyCode.backspace
      = StepResult.cont ⟨"", InputMode.Editing, "", [], 0⟩ := by
  refine ⟨?_, ?_, ?_⟩
  · exact c10_editing_keys.1 ⟨"a", InputMode.Editing, "", [], 0⟩ 'q' rfl
  · exact c10_editing_keys.2.1 ⟨"", InputMode.Normal, "", [], 0⟩ rfl
  · exact c10_editing_keys.2.2.2 ⟨"", InputMode.Editing, "", [], 0⟩ rfl rfl
